import Mathlib

/-!
Verification development for the floyd replicated key-value store's
consensus core (`RaftConsensus` in raft.cc / raft.h).

The state of one replica is embedded as a Lean structure mirroring the
member fields of `RaftConsensus`; each handler that a claim refers to
(`HandleRequestVote`, `HandleAppendEntries`, `Replicate`,
`WaitForCommitIndex`, `AdvanceCommitIndex`, `QuorumMin`, `StepDown`,
`Append`) is embedded as a pure function on that structure, translated
line by line from the C++ source.  All handlers run under the single
consensus mutex, so one handler invocation is one atomic state
transition.  Peer threads are abstracted to the one value the embedded
code reads from them: their `GetLastAgreeIndex` (match index).  Wall
clock time is abstracted: the election deadline is modelled by the flag
`deadline_infinite` (the C++ sentinel `start_election_at_.tv_sec == max`)
together with a counter `timer_resets` counting `SetElectionTimer`
invocations, and the timed wait of `WaitForCommitIndex` is driven by an
explicit list of observations (commit index seen at wakeup, whether the
deadline has elapsed).
-/

namespace Floyd

/-- Role of a replica (`RaftConsensus::State`). -/
inductive Role where
  | follower
  | candidate
  | leader
deriving DecidableEq, Repr

/-- Kind of a log entry (`floyd::raft::Entry::Type`). -/
inductive EntryKind where
  | data
  | noop
deriving DecidableEq, Repr

/-- One log entry: term, kind and opaque payload bytes (`Entry.cmd`). -/
structure LogEntry where
  term : Nat
  kind : EntryKind
  payload : List Nat
deriving DecidableEq, Repr

/-- The persistent metadata record written by `UpdateLogMetadata`. -/
structure Metadata where
  current_term : Nat
  voted_for_ip : String
  voted_for_port : Nat
deriving DecidableEq, Repr

/-- Result of `Replicate` / `WaitForCommitIndex` (`RaftConsensus::Result`). -/
inductive RaftResult where
  | success
  | not_leader
  | timeout
deriving DecidableEq, Repr

/-- The mutex-protected state of one `RaftConsensus` instance.

`peers` holds, for each element of `peers_`, the value the consensus
core reads from that peer thread: its `GetLastAgreeIndex()` (match
index).  `log` is the 1-based entry sequence held by `log_`;
`metadata` is the record `log_->metadata`. -/
structure RaftState where
  role : Role
  current_term : Nat
  commit_index : Nat
  leader_ip : String
  leader_port : Nat
  voted_for_ip : String
  voted_for_port : Nat
  last_synced_index : Nat
  voteable : Bool
  vote_target_term : Nat
  vote_target_index : Nat
  peers : List Nat
  log : List LogEntry
  log_sync_queued : Bool
  metadata : Metadata
  deadline_infinite : Bool
  timer_resets : Nat
deriving DecidableEq, Repr

/-- `Log::GetLastLogIndex`: number of entries (indices are 1-based). -/
def lastLogIndex (log : List LogEntry) : Nat := log.length

/-- `Log::GetEntry(i)` for a 1-based index; `none` when `i` is 0 or
beyond the last entry (the C++ call is only made on existing indices). -/
def getEntry (log : List LogEntry) (i : Nat) : Option LogEntry :=
  if i = 0 then none else log.get? (i - 1)

/-- `RaftConsensus::GetLastLogTerm`: 0 on an empty log, else the term of
the last entry. -/
def getLastLogTerm (log : List LogEntry) : Nat :=
  if lastLogIndex log = 0 then 0
  else ((getEntry log (lastLogIndex log)).map LogEntry.term).getD 0

/-- `RaftConsensus::SetElectionTimer`: arms a fresh randomized deadline.
The deadline value itself is random real time and is abstracted to the
invocation counter `timer_resets`. -/
def setElectionTimer (s : RaftState) : RaftState :=
  { s with timer_resets := s.timer_resets + 1, deadline_infinite := false }

/-- `RaftConsensus::UpdateLogMetadata`: copies `(current_term_,
voted_for_ip_, voted_for_port_)` into the log's metadata record. -/
def updateLogMetadata (s : RaftState) : RaftState :=
  { s with metadata := ⟨s.current_term, s.voted_for_ip, s.voted_for_port⟩ }

/-- `RaftConsensus::StepDown(new_term)`: when the term rises, adopt it,
clear leader and vote and persist the metadata; in all cases become
follower; arm the election timer when the deadline was infinite; and
drain a queued log sync. -/
def stepDown (s : RaftState) (new_term : Nat) : RaftState :=
  let s1 :=
    if s.current_term < new_term then
      { updateLogMetadata
          { s with current_term := new_term, leader_ip := "", leader_port := 0,
                   voted_for_ip := "", voted_for_port := 0 } with
        role := Role.follower }
    else
      { s with role := Role.follower }
  let s2 := if s1.deadline_infinite then setElectionTimer s1 else s1
  if s2.log_sync_queued then { s2 with log_sync_queued := false } else s2

/-- `RaftConsensus::Append(entries)`: append to the log; a leader only
queues the disk sync (`log_sync_queued_`), a non-leader waits for the
sync inline (no state field changes beyond the log). -/
def append (s : RaftState) (entries : List LogEntry) : RaftState :=
  let s1 := { s with log := s.log ++ entries }
  if s1.role = Role.leader then { s1 with log_sync_queued := true } else s1

/-- `RaftConsensus::Replicate(cmd)`: on the leader, append one DATA
entry carrying the serialized command at the current term and return
`SUCCESS` with the assigned index; otherwise return `NOT_LEADER`. -/
def replicate (s : RaftState) (payload : List Nat) :
    RaftState × (RaftResult × Nat) :=
  if s.role = Role.leader then
    let s1 := append s [⟨s.current_term, EntryKind.data, payload⟩]
    (s1, (RaftResult.success, lastLogIndex s1.log))
  else
    (s, (RaftResult.not_leader, 0))

/-- Wire message of `RequestVote` (`cmd.rqv()`). -/
structure RequestVote where
  term : Nat
  ip : String
  port : Nat
  last_log_index : Nat
  last_log_term : Nat
deriving DecidableEq, Repr

/-- Reply of `HandleRequestVote` (`floyd::raft::ResponseVote`). -/
structure VoteReply where
  term : Nat
  granted : Bool
deriving DecidableEq, Repr

/-- The `can_grant` test of `HandleRequestVote`: the candidate's
`(last_log_term, last_log_index)` is at least as up-to-date as the
receiver's, lexicographically on term then index. -/
def canGrant (s : RaftState) (rqv : RequestVote) : Prop :=
  getLastLogTerm s.log < rqv.last_log_term ∨
    (rqv.last_log_term = getLastLogTerm s.log ∧
      lastLogIndex s.log ≤ rqv.last_log_index)

instance (s : RaftState) (rqv : RequestVote) : Decidable (canGrant s rqv) :=
  inferInstanceAs (Decidable (_ ∨ _))

/-- `RaftConsensus::HandleRequestVote`, translated line by line:
step down when the candidate's term is higher and its log is fresh
enough; latch `voteable_`; grant only when the terms are equal, the
log is fresh enough, no vote has been cast this term and the node is
voteable; the reply carries the final current term. -/
def handleRequestVote (s : RaftState) (rqv : RequestVote) :
    RaftState × VoteReply :=
  let s1 :=
    if s.current_term < rqv.term ∧ canGrant s rqv then stepDown s rqv.term
    else s
  let s2 :=
    if s1.vote_target_index ≤ s1.commit_index ∧
        s1.vote_target_term ≤ s1.current_term then
      { s1 with voteable := true }
    else s1
  let p :=
    if rqv.term = s2.current_term then
      if canGrant s rqv ∧ s2.voted_for_ip = "" ∧ s2.voted_for_port = 0 then
        if s2.voteable then
          let t1 := setElectionTimer (stepDown s2 s2.current_term)
          let t2 := updateLogMetadata
            { t1 with voted_for_ip := rqv.ip, voted_for_port := rqv.port }
          (t2, true)
        else
          (setElectionTimer (stepDown s2 s2.current_term), false)
      else (s2, false)
    else (s2, false)
  (p.1, ⟨p.1.current_term, p.2⟩)

/-- Wire message of `AppendEntries` (`cmd.aerq()`).  Each wire entry is
received as a `LogEntry`; `commit_index` is the leader's commit index
(`leader_commit`). -/
structure AppendEntriesReq where
  term : Nat
  ip : String
  port : Nat
  prev_log_index : Nat
  prev_log_term : Nat
  entries : List LogEntry
  commit_index : Nat
deriving DecidableEq, Repr

/-- Reply of `HandleAppendEntries`
(`floyd::raft::AppendEntriesResponse`): `success` is the wire field
`status`. -/
structure AppendEntriesReply where
  term : Nat
  success : Bool
deriving DecidableEq, Repr

/-- The entry walk of `HandleAppendEntries`: starting after
`prev_log_index`, skip incoming entries whose index already holds an
entry of the same term; at the first mismatching index truncate the
local suffix (`TruncateSuffix(index - 1)`) and append all remaining
incoming entries; at the first index beyond the local log append all
remaining incoming entries. -/
def appendWalk (log : List LogEntry) (index : Nat) :
    List LogEntry → List LogEntry
  | [] => log
  | e :: rest =>
    let idx := index + 1
    if idx ≤ lastLogIndex log then
      if (getEntry log idx).map LogEntry.term = some e.term then
        appendWalk log idx rest
      else
        log.take (idx - 1) ++ (e :: rest)
    else
      log ++ (e :: rest)

/-- The tail of `HandleAppendEntries` after the leader-identity check:
log-match check on `prev_log_index`, on success the entry walk and the
commit-index update.  `reply_term` is the value already stored in the
reply object (the receiver's term, overwritten by the sender's term
when that was higher). -/
def handleAppendEntriesBody (s : RaftState) (req : AppendEntriesReq)
    (reply_term : Nat) : RaftState × AppendEntriesReply :=
  if req.prev_log_index ≠ 0 ∧
      (lastLogIndex s.log < req.prev_log_index ∨
        (getEntry s.log req.prev_log_index).map LogEntry.term ≠
          some req.prev_log_term) then
    (s, ⟨reply_term, false⟩)
  else
    let s1 := { s with log := appendWalk s.log req.prev_log_index req.entries }
    let s2 :=
      if s1.commit_index < req.commit_index then
        { s1 with commit_index := req.commit_index }
      else s1
    (s2, ⟨reply_term, true⟩)

/-- `RaftConsensus::HandleAppendEntries`, translated line by line:
reject a stale sender with the receiver's term; otherwise step down to
the sender's term, rearm the election timer, record the sender as
leader (the C++ `assert` that an already-known leader matches the
sender is modelled as `none` when it fails), run the log-match check
and the entry walk, and raise the commit index to the leader's commit
index when that is larger. -/
def handleAppendEntries (s : RaftState) (req : AppendEntriesReq) :
    Option (RaftState × AppendEntriesReply) :=
  if req.term < s.current_term then
    some (s, ⟨s.current_term, false⟩)
  else
    let reply_term := if s.current_term < req.term then req.term
                      else s.current_term
    let s1 := setElectionTimer (stepDown s req.term)
    if s1.leader_ip = "" ∨ s1.leader_port = 0 then
      some (handleAppendEntriesBody
        { s1 with leader_ip := req.ip, leader_port := req.port } req reply_term)
    else if s1.leader_ip = req.ip ∧ s1.leader_port = req.port then
      some (handleAppendEntriesBody s1 req reply_term)
    else
      none

/-- `RaftConsensus::QuorumMin(&PeerThread::GetLastAgreeIndex)`: with no
peers, the locally synced index; otherwise the element at position
`size / 2` of the ascending sort of the peers' match indices. -/
def quorumMin (s : RaftState) : Nat :=
  if s.peers = [] then s.last_synced_index
  else (List.insertionSort (· ≤ ·) s.peers).getD (s.peers.length / 2) 0

/-- `RaftConsensus::AdvanceCommitIndex`: on the leader, raise
`commit_index_` to `QuorumMin` provided that is strictly larger and the
entry there carries the current term. -/
def advanceCommitIndex (s : RaftState) : RaftState :=
  if s.role ≠ Role.leader then s
  else
    let new_commit_index := quorumMin s
    if new_commit_index ≤ s.commit_index then s
    else if (getEntry s.log new_commit_index).map LogEntry.term ≠
        some s.current_term then s
    else { s with commit_index := new_commit_index }

/-- One wakeup of the wait loop in `WaitForCommitIndex`: the commit
index read under the mutex, the current term read at the same moment
(which the code does not consult), and whether `gettimeofday` shows the
10-second deadline elapsed. -/
structure WaitObs where
  commit_index : Nat
  current_term : Nat
  timed_out : Bool
deriving DecidableEq, Repr

/-- The wait loop of `WaitForCommitIndex` over successive wakeups:
return `SUCCESS` once the observed commit index reaches `index`,
`TIMEOUT` once the deadline has elapsed, `none` while still waiting. -/
def waitLoopResult (index : Nat) : List WaitObs → Option (RaftResult × Nat)
  | [] => none
  | o :: rest =>
    if index ≤ o.commit_index then some (RaftResult.success, index)
    else if o.timed_out then some (RaftResult.timeout, index)
    else waitLoopResult index rest

/-- `RaftConsensus::WaitForCommitIndex(index)`: with no peers, set
`commit_index_ = index` and return `SUCCESS` immediately; otherwise
loop on the condition until commit or timeout (the loop itself writes
no consensus state; concurrent writers are reflected in `obs`). -/
def waitForCommitIndex (s : RaftState) (index : Nat) (obs : List WaitObs) :
    RaftState × Option (RaftResult × Nat) :=
  if s.peers = [] then
    ({ s with commit_index := index }, some (RaftResult.success, index))
  else
    (s, waitLoopResult index obs)

/-- Modelled from the spec (for comparison only, claim C2): the median
of the size-`n` multiset `{last_synced_index} ∪ {match_index_p}`, read
as the element at position `(n - 1) / 2` of its ascending sort. -/
def specClusterMedian (last_synced : Nat) (match_values : List Nat) : Nat :=
  (List.insertionSort (· ≤ ·) (last_synced :: match_values)).getD
    ((match_values.length + 1 - 1) / 2) 0

/-! Projection lemmas for the embedded helpers -/

theorem stepDown_log (s : RaftState) (t : Nat) : (stepDown s t).log = s.log := by
  simp only [stepDown, setElectionTimer, updateLogMetadata]
  repeat' split
  all_goals rfl

theorem stepDown_commit_index (s : RaftState) (t : Nat) :
    (stepDown s t).commit_index = s.commit_index := by
  simp only [stepDown, setElectionTimer, updateLogMetadata]
  repeat' split
  all_goals rfl

theorem stepDown_voteable (s : RaftState) (t : Nat) :
    (stepDown s t).voteable = s.voteable := by
  simp only [stepDown, setElectionTimer, updateLogMetadata]
  repeat' split
  all_goals rfl

theorem stepDown_vote_target_term (s : RaftState) (t : Nat) :
    (stepDown s t).vote_target_term = s.vote_target_term := by
  simp only [stepDown, setElectionTimer, updateLogMetadata]
  repeat' split
  all_goals rfl

theorem stepDown_vote_target_index (s : RaftState) (t : Nat) :
    (stepDown s t).vote_target_index = s.vote_target_index := by
  simp only [stepDown, setElectionTimer, updateLogMetadata]
  repeat' split
  all_goals rfl

theorem stepDown_peers (s : RaftState) (t : Nat) :
    (stepDown s t).peers = s.peers := by
  simp only [stepDown, setElectionTimer, updateLogMetadata]
  repeat' split
  all_goals rfl

theorem stepDown_role (s : RaftState) (t : Nat) :
    (stepDown s t).role = Role.follower := by
  simp only [stepDown, setElectionTimer, updateLogMetadata]
  repeat' split
  all_goals rfl

theorem stepDown_current_term (s : RaftState) (t : Nat) :
    (stepDown s t).current_term =
      if s.current_term < t then t else s.current_term := by
  by_cases h : s.current_term < t <;>
    simp only [stepDown, setElectionTimer, updateLogMetadata, h,
      if_true, if_false] <;>
    (repeat' split) <;> rfl

theorem stepDown_voted_for_ip (s : RaftState) (t : Nat) :
    (stepDown s t).voted_for_ip =
      if s.current_term < t then "" else s.voted_for_ip := by
  by_cases h : s.current_term < t <;>
    simp only [stepDown, setElectionTimer, updateLogMetadata, h,
      if_true, if_false] <;>
    (repeat' split) <;> rfl

theorem stepDown_voted_for_port (s : RaftState) (t : Nat) :
    (stepDown s t).voted_for_port =
      if s.current_term < t then 0 else s.voted_for_port := by
  by_cases h : s.current_term < t <;>
    simp only [stepDown, setElectionTimer, updateLogMetadata, h,
      if_true, if_false] <;>
    (repeat' split) <;> rfl

theorem stepDown_leader_ip (s : RaftState) (t : Nat) :
    (stepDown s t).leader_ip =
      if s.current_term < t then "" else s.leader_ip := by
  by_cases h : s.current_term < t <;>
    simp only [stepDown, setElectionTimer, updateLogMetadata, h,
      if_true, if_false] <;>
    (repeat' split) <;> rfl

theorem stepDown_leader_port (s : RaftState) (t : Nat) :
    (stepDown s t).leader_port =
      if s.current_term < t then 0 else s.leader_port := by
  by_cases h : s.current_term < t <;>
    simp only [stepDown, setElectionTimer, updateLogMetadata, h,
      if_true, if_false] <;>
    (repeat' split) <;> rfl

theorem stepDown_timer_resets_le (s : RaftState) (t : Nat) :
    s.timer_resets ≤ (stepDown s t).timer_resets := by
  simp only [stepDown, setElectionTimer, updateLogMetadata]
  repeat' split
  all_goals simp

/-- A follower state used as the base point of the concrete executions
below: term 1, empty log, nothing committed, no vote cast, eligible to
vote (both vote targets already reached). -/
def baseState : RaftState :=
  { role := Role.follower, current_term := 1, commit_index := 0,
    leader_ip := "", leader_port := 0, voted_for_ip := "",
    voted_for_port := 0, last_synced_index := 0, voteable := true,
    vote_target_term := 0, vote_target_index := 0, peers := [],
    log := [], log_sync_queued := false, metadata := ⟨0, "", 0⟩,
    deadline_infinite := false, timer_resets := 0 }

/-! Claim C1 -/

/-- C1: evaluation of `HandleAppendEntries` at a concrete accepted
request showing the missing `min`: a follower with an empty log accepts
`{term 1, prev_log_index 0, entries [], leader_commit 5}` and sets its
commit index to the full `leader_commit` 5, although the index of the
last new entry (and of the last entry of its log) is 0; the claimed
`min(leader_commit, index_of_last_new_entry) = 0` bound is violated. -/
theorem handleAppendEntries_commit_overshoots_log :
    (handleAppendEntries baseState ⟨1, "l", 9, 0, 0, [], 5⟩).map
        (fun p => (p.1.commit_index, lastLogIndex p.1.log, p.2.success))
      = some (5, 0, true) := by decide

/-! Claim C3 -/

/-- Leader state for the C3 witness: quorum index 5, but the entry
at index 5 carries term 0 while the current term is 1. -/
def staleTermLeader : RaftState :=
  { baseState with
      role := Role.leader, peers := [5, 5],
      log := List.replicate 5 ⟨0, EntryKind.noop, []⟩ }

/-- C3: in `AdvanceCommitIndex`, if the quorum index exceeds the current
commit index but the entry there does not carry the current term, the
commit index is left unchanged; and in every case the commit index
either stays put or moves up to an index whose entry carries the
current term. -/
theorem advanceCommitIndex_term_guard (s : RaftState) :
    (s.role = Role.leader → s.commit_index < quorumMin s →
        (getEntry s.log (quorumMin s)).map LogEntry.term ≠ some s.current_term →
        (advanceCommitIndex s).commit_index = s.commit_index)
    ∧ ((advanceCommitIndex s).commit_index = s.commit_index ∨
        ((getEntry s.log ((advanceCommitIndex s).commit_index)).map
            LogEntry.term = some s.current_term
          ∧ s.commit_index < (advanceCommitIndex s).commit_index)) := by
  constructor
  · intro hrole hlt hne
    simp only [advanceCommitIndex]
    rw [if_neg (by simp [hrole]), if_neg (by omega), if_pos hne]
  · simp only [advanceCommitIndex]
    split
    · left; rfl
    · split
      · left; rfl
      · split
        · left; rfl
        · next h2 h3 =>
          right
          exact ⟨not_not.mp h3, Nat.lt_of_not_le h2⟩

/-- Witness for C3: `staleTermLeader` keeps its commit index at 0. -/
theorem advanceCommitIndex_term_guard_witness :
    (advanceCommitIndex staleTermLeader).commit_index
      = staleTermLeader.commit_index :=
  (advanceCommitIndex_term_guard staleTermLeader).1
    (by decide) (by decide) (by decide)

/-! Claim C7 -/

/-- A leader at term 1 with an empty log, for the C7 witness. -/
def freshLeader : RaftState := { baseState with role := Role.leader }

/-- C7: `Replicate` returns NOT_LEADER exactly when the role is not
LEADER, and then changes nothing; on the leader it appends exactly one
DATA entry carrying the current term and the serialized command and
returns SUCCESS with the assigned index (the new last log index). -/
theorem replicate_spec (s : RaftState) (payload : List Nat) :
    ((replicate s payload).2.1 = RaftResult.not_leader ↔
      s.role ≠ Role.leader)
    ∧ (s.role ≠ Role.leader → (replicate s payload).1 = s)
    ∧ (s.role = Role.leader →
        (replicate s payload).1.log
            = s.log ++ [⟨s.current_term, EntryKind.data, payload⟩]
          ∧ (replicate s payload).2
            = (RaftResult.success, lastLogIndex s.log + 1)) := by
  by_cases h : s.role = Role.leader <;>
    simp [replicate, append, h, lastLogIndex]

/-- Witness for C7: on `freshLeader`, `Replicate` appends the DATA
entry and returns SUCCESS with index 1; on the follower `baseState` it
leaves the state alone. -/
theorem replicate_spec_witness :
    ((replicate freshLeader [7]).1.log
        = freshLeader.log
            ++ [⟨freshLeader.current_term, EntryKind.data, [7]⟩]
      ∧ (replicate freshLeader [7]).2
        = (RaftResult.success, lastLogIndex freshLeader.log + 1))
    ∧ (replicate baseState [7]).1 = baseState :=
  ⟨(replicate_spec freshLeader [7]).2.2 (by decide),
   (replicate_spec baseState [7]).2.1 (by decide)⟩

/-! Claim C10 -/

/-- Single-node state for the C10 witness: a log sync is queued and the
single log entry carries term 0 ≠ current term 1. -/
def unsyncedSingleNode : RaftState :=
  { baseState with
      log_sync_queued := true, log := [⟨0, EntryKind.data, []⟩] }

/-- C10: with an empty peer set, `WaitForCommitIndex(index)` sets the
commit index to `index` and returns SUCCESS immediately, for every
state — in particular independently of `log_sync_queued`, of the terms
of the log entries, and of the current term: neither the disk sync nor
`AdvanceCommitIndex` with its term check is consulted, and nothing but
the commit index changes. -/
theorem waitForCommitIndex_single_node (s : RaftState) (index : Nat)
    (obs : List WaitObs) (h : s.peers = []) :
    waitForCommitIndex s index obs
      = ({ s with commit_index := index },
         some (RaftResult.success, index)) := by
  unfold waitForCommitIndex
  rw [if_pos h]

/-- Witness for C10: `unsyncedSingleNode` still gets its commit index
set to the requested index 1 with SUCCESS, untouched sync flag. -/
theorem waitForCommitIndex_single_node_witness :
    waitForCommitIndex unsyncedSingleNode 1 []
      = ({ unsyncedSingleNode with commit_index := 1 },
         some (RaftResult.success, 1)) :=
  waitForCommitIndex_single_node unsyncedSingleNode 1 [] (by decide)

/-! Claim C9 -/

/-- A single-node state whose commit index is already 2, for the C9
counterexample. -/
def committedTwoState : RaftState := { baseState with commit_index := 2 }

/-- C9 counterexample: the single-node fast path of
`WaitForCommitIndex` assigns the requested index unconditionally, so a
state with commit index 2 asked to wait for index 1 has its commit
index lowered to 1 (reachable when two proposals commit out of client
order); the claim that no operation ever assigns a smaller commit
index is false for this operation. -/
theorem waitForCommitIndex_decreases_commit :
    committedTwoState.commit_index = 2
    ∧ (waitForCommitIndex committedTwoState 1 []).1.commit_index = 1 := by
  decide

/-- C9 as amended: `AdvanceCommitIndex` and `HandleAppendEntries` never
lower the commit index; the client wait path never lowers it provided
the awaited index is at least the current commit index (which the
single-node `Replicate` caller guarantees by passing a fresh last log
index). -/
theorem commit_index_monotone_ops (s : RaftState) (req : AppendEntriesReq)
    (index : Nat) (obs : List WaitObs) :
    (s.commit_index ≤ (advanceCommitIndex s).commit_index)
    ∧ (∀ out, handleAppendEntries s req = some out →
        s.commit_index ≤ out.1.commit_index)
    ∧ (s.commit_index ≤ index →
        s.commit_index ≤ (waitForCommitIndex s index obs).1.commit_index) := by
  refine ⟨?_, ?_, ?_⟩
  · simp only [advanceCommitIndex]
    split
    · exact Nat.le_refl _
    · split
      · exact Nat.le_refl _
      · split
        · exact Nat.le_refl _
        · next h2 h3 => exact Nat.le_of_lt (Nat.lt_of_not_le h2)
  · intro out h
    have hbody : ∀ (st : RaftState) (rt : Nat),
        st.commit_index = s.commit_index →
        s.commit_index
          ≤ (handleAppendEntriesBody st req rt).1.commit_index := by
      intro st rt hst
      simp only [handleAppendEntriesBody]
      split
      · exact hst.ge
      · split
        · next hlt => exact Nat.le_of_lt (hst ▸ hlt)
        · exact hst.ge
    simp only [handleAppendEntries] at h
    split at h
    · cases h; exact Nat.le_refl _
    · split at h
      · cases h
        exact hbody _ _ (by simp [setElectionTimer, stepDown_commit_index])
      · split at h
        · cases h
          exact hbody _ _ (by simp [setElectionTimer, stepDown_commit_index])
        · cases h
  · intro hle
    unfold waitForCommitIndex
    split
    · exact hle
    · exact Nat.le_refl _

/-- Witness for C9's amended theorem: at `baseState` with commit index
0, each of the three operations leaves the commit index at least 0. -/
theorem commit_index_monotone_ops_witness :
    baseState.commit_index
        ≤ (advanceCommitIndex baseState).commit_index
    ∧ (baseState.commit_index ≤ 1 →
        baseState.commit_index
          ≤ (waitForCommitIndex baseState 1 []).1.commit_index) :=
  ⟨(commit_index_monotone_ops baseState ⟨1, "l", 9, 0, 0, [], 5⟩ 1 []).1,
   (commit_index_monotone_ops baseState ⟨1, "l", 9, 0, 0, [], 5⟩ 1 []).2.2⟩

/-! Claim C6 -/

/-- The reply produced by the tail of `HandleAppendEntries`: `success`
is false exactly when the log-match check fails, and the reply term is
the value stored earlier. -/
theorem handleAppendEntriesBody_reply (st : RaftState)
    (req : AppendEntriesReq) (rt : Nat) :
    ((handleAppendEntriesBody st req rt).2.success = false ↔
      (req.prev_log_index ≠ 0 ∧
        (lastLogIndex st.log < req.prev_log_index ∨
          (getEntry st.log req.prev_log_index).map LogEntry.term ≠
            some req.prev_log_term)))
    ∧ (handleAppendEntriesBody st req rt).2.term = rt := by
  simp only [handleAppendEntriesBody]
  split
  · next hc => exact ⟨iff_of_true rfl hc, rfl⟩
  · next hc => exact ⟨iff_of_false (by simp) hc, rfl⟩

/-- C6: whenever `HandleAppendEntries` produces a reply, the reply has
success = false exactly when the sender's term is below the receiver's
current term or the log-match check on `prev_log_index` fails; and in
the stale-term case the reply carries the receiver's current term. -/
theorem handleAppendEntries_reject_iff (s : RaftState)
    (req : AppendEntriesReq) (out : RaftState × AppendEntriesReply)
    (h : handleAppendEntries s req = some out) :
    (out.2.success = false ↔
      (req.term < s.current_term ∨
        (req.prev_log_index ≠ 0 ∧
          (lastLogIndex s.log < req.prev_log_index ∨
            (getEntry s.log req.prev_log_index).map LogEntry.term ≠
              some req.prev_log_term))))
    ∧ (req.term < s.current_term → out.2.term = s.current_term) := by
  simp only [handleAppendEntries] at h
  split at h
  · next hlt =>
    cases h
    exact ⟨by simp [hlt], fun _ => rfl⟩
  · next hge =>
    split at h
    · cases h
      constructor
      · rw [(handleAppendEntriesBody_reply _ req _).1]
        simp [setElectionTimer, stepDown_log, hge]
      · intro hlt; exact absurd hlt hge
    · split at h
      · cases h
        constructor
        · rw [(handleAppendEntriesBody_reply _ req _).1]
          simp [setElectionTimer, stepDown_log, hge]
        · intro hlt; exact absurd hlt hge
      · exact Option.noConfusion h

/-- Witness for C6: a receiver at term 3 replies (term 3, success
false) to a request at stale term 1, matching the characterization. -/
theorem handleAppendEntries_reject_iff_witness :
    handleAppendEntries { baseState with current_term := 3 }
        ⟨1, "l", 9, 0, 0, [], 0⟩
      = some ({ baseState with current_term := 3 }, ⟨3, false⟩)
    ∧ ((3 : Nat), false).2 = false
    ∧ (1 < 3 → (⟨3, false⟩ : AppendEntriesReply).term
        = ({ baseState with current_term := 3 } : RaftState).current_term) :=
  ⟨by decide, rfl,
   (handleAppendEntries_reject_iff { baseState with current_term := 3 }
      ⟨1, "l", 9, 0, 0, [], 0⟩
      ({ baseState with current_term := 3 }, ⟨3, false⟩) (by decide)).2⟩

/-! Claim C8 -/

/-- A two-node state (one peer) whose client wait loop is exercised by
the C8 theorems. -/
def twoNodeWaiter : RaftState := { baseState with peers := [7] }

/-- Wakeups during which the observed term has changed from 1 to 5 and
the deadline then elapses; the entry never commits. -/
def termChangeObs : List WaitObs := [⟨0, 5, false⟩, ⟨0, 5, true⟩]

/-- C8 counterexample: during the wait the observed term changes from 1
(the waiter's term) to 5, yet `WaitForCommitIndex` returns TIMEOUT
after the full deadline rather than NOT_LEADER — the function contains
no term-change check at all. -/
theorem wait_ignores_term_change :
    (waitForCommitIndex twoNodeWaiter 1 termChangeObs).2
        = some (RaftResult.timeout, 1)
    ∧ twoNodeWaiter.current_term = 1
    ∧ termChangeObs.all
        (fun o => o.current_term != twoNodeWaiter.current_term) = true := by
  decide

/-- C8 as amended: with peers present the wait writes no consensus
state, and it terminates in exactly one of two ways — SUCCESS, only
when some wakeup observed the commit index at or beyond the awaited
index, or TIMEOUT when the deadline elapsed; NOT_LEADER is never
produced, so a term change during the wait is not surfaced and the
caller waits for the full timeout. -/
theorem waitForCommitIndex_success_or_timeout (s : RaftState) (index : Nat)
    (obs : List WaitObs) (hp : s.peers ≠ []) :
    ((waitForCommitIndex s index obs).1 = s)
    ∧ ∀ r, (waitForCommitIndex s index obs).2 = some r →
        ((r = (RaftResult.success, index)
            ∧ ∃ o ∈ obs, index ≤ o.commit_index)
          ∨ r = (RaftResult.timeout, index)) := by
  unfold waitForCommitIndex
  rw [if_neg hp]
  refine ⟨rfl, ?_⟩
  intro r h
  induction obs with
  | nil => exact Option.noConfusion h
  | cons o rest ih =>
    simp only [waitLoopResult] at h
    split at h
    · next hc => cases h; exact Or.inl ⟨rfl, ⟨o, by simp, hc⟩⟩
    · split at h
      · cases h; exact Or.inr rfl
      · rcases ih h with ⟨hr, o', ho', hle⟩ | hr
        · exact Or.inl ⟨hr, ⟨o', by simp [ho'], hle⟩⟩
        · exact Or.inr hr

/-- Witness for C8's amended theorem at the concrete run of the
counterexample: the state is untouched and the outcome TIMEOUT is one
of the two permitted terminations. -/
theorem waitForCommitIndex_success_or_timeout_witness :
    (waitForCommitIndex twoNodeWaiter 1 termChangeObs).1 = twoNodeWaiter
    ∧ (((RaftResult.timeout, 1) = ((RaftResult.success, 1) : RaftResult × Nat)
          ∧ ∃ o ∈ termChangeObs, 1 ≤ o.commit_index)
        ∨ ((RaftResult.timeout, 1) : RaftResult × Nat)
            = (RaftResult.timeout, 1)) :=
  ⟨(waitForCommitIndex_success_or_timeout twoNodeWaiter 1 termChangeObs
      (by decide)).1,
   (waitForCommitIndex_success_or_timeout twoNodeWaiter 1 termChangeObs
      (by decide)).2 (RaftResult.timeout, 1) (by decide)⟩

/-! Claim C2 -/

/-- Leader state for the C2 theorems: current term 1, five local
entries of term 1, nothing locally synced to disk yet
(`last_synced_index_ = 0`), two peers whose match indices are 0 and
5. -/
def unsyncedLeader : RaftState :=
  { baseState with
      role := Role.leader, peers := [0, 5],
      log := List.replicate 5 ⟨1, EntryKind.noop, []⟩ }

/-- C2 counterexample: with peers present, `QuorumMin` ignores
`last_synced_index_` entirely.  On `unsyncedLeader` it returns 5, while
the median of the cluster-sized multiset `{last_synced} ∪ {match_p}` =
`{0, 0, 5}` demanded by the claim is 0; consequently
`AdvanceCommitIndex` raises the commit index to 5 even though the
leader's own log is durable only up to 0 — the commit index does
advance past `last_synced_index_`. -/
theorem quorumMin_ignores_local_sync :
    quorumMin unsyncedLeader = 5
    ∧ specClusterMedian unsyncedLeader.last_synced_index
        unsyncedLeader.peers = 0
    ∧ (advanceCommitIndex unsyncedLeader).commit_index = 5
    ∧ unsyncedLeader.last_synced_index = 0
    ∧ (advanceCommitIndex unsyncedLeader).commit_index
        > unsyncedLeader.last_synced_index := by decide

/-- C2 as amended: with a non-empty peer set, the quorum index used by
commit advancement is the element at position `size / 2` of the sorted
vector of the peers' match indices alone: it is always one of the
peers' match indices (the local `last_synced_index_` is not part of
the multiset), and at least `size - size / 2` peers — at least half of
them — have matched it.  `last_synced_index_` is returned only when the
peer set is empty. -/
theorem quorumMin_member_and_quorum (s : RaftState) (hp : s.peers ≠ []) :
    quorumMin s ∈ s.peers
    ∧ s.peers.length - s.peers.length / 2
        ≤ s.peers.countP (fun v => decide (quorumMin s ≤ v)) := by
  have hperm : List.Perm (List.insertionSort (· ≤ ·) s.peers) s.peers :=
    List.perm_insertionSort _ _
  have hlen : (List.insertionSort (· ≤ ·) s.peers).length = s.peers.length :=
    List.length_insertionSort _ _
  have hpos : 0 < s.peers.length := List.length_pos.mpr hp
  have hk : s.peers.length / 2
      < (List.insertionSort (· ≤ ·) s.peers).length := by
    rw [hlen]; exact Nat.div_lt_self hpos (by norm_num)
  have hq : quorumMin s
      = (List.insertionSort (· ≤ ·) s.peers).get
          ⟨s.peers.length / 2, hk⟩ := by
    unfold quorumMin
    rw [if_neg hp, List.getD_eq_getElem?_getD, List.getElem?_eq_getElem hk]
    rfl
  have hsorted : List.Sorted (· ≤ ·) (List.insertionSort (· ≤ ·) s.peers) :=
    List.sorted_insertionSort _ _
  constructor
  · rw [hq]
    exact hperm.mem_iff.mp (List.get_mem _ _ _)
  · rw [← hperm.countP_eq]
    set l := List.insertionSort (· ≤ ·) s.peers with hldef
    set k := s.peers.length / 2 with hkdef
    have hdropall : ∀ x ∈ l.drop k,
        (fun v => decide (quorumMin s ≤ v)) x = true := by
      intro x hx
      obtain ⟨⟨j, hj⟩, rfl⟩ := List.mem_iff_get.mp hx
      have hkj : k + j < l.length := by
        have hdl : (l.drop k).length = l.length - k := List.length_drop _ _
        omega
      have hx2 : (l.drop k).get ⟨j, hj⟩ = l.get ⟨k + j, hkj⟩ :=
        List.getElem_drop l
      rw [hx2]
      simp only [decide_eq_true_eq]
      rw [hq]
      exact hsorted.rel_get_of_le
        (Fin.mk_le_mk.mpr (Nat.le_add_right _ _))
    have h1 : l.countP (fun v => decide (quorumMin s ≤ v))
        = (l.take k).countP (fun v => decide (quorumMin s ≤ v))
          + (l.drop k).countP (fun v => decide (quorumMin s ≤ v)) := by
      conv_lhs => rw [← List.take_append_drop k l]
      rw [List.countP_append]
    have h2 : (l.drop k).countP (fun v => decide (quorumMin s ≤ v))
        = (l.drop k).length :=
      List.countP_eq_length.mpr hdropall
    have h3 : (l.drop k).length = l.length - k := List.length_drop _ _
    omega

/-- Witness for C2's amended theorem on `unsyncedLeader`: the quorum
index 5 is one of the peer match indices and at least one of the two
peers has matched it. -/
theorem quorumMin_member_and_quorum_witness :
    quorumMin unsyncedLeader ∈ unsyncedLeader.peers
    ∧ unsyncedLeader.peers.length - unsyncedLeader.peers.length / 2
        ≤ unsyncedLeader.peers.countP
            (fun v => decide (quorumMin unsyncedLeader ≤ v)) :=
  quorumMin_member_and_quorum unsyncedLeader (by decide)

/-! Claims C4 and C5: concrete states -/

/-- A receiver that has already voted this term for the candidate
"a":1 itself; all other grant conditions hold. -/
def repeatVoteState : RaftState :=
  { baseState with voted_for_ip := "a", voted_for_port := 1 }

/-- A repeat RequestVote from the same candidate "a":1 at the
receiver's own term with an equally fresh (empty) log. -/
def repeatVoteReq : RequestVote := ⟨1, "a", 1, 0, 0⟩

/-- A RequestVote that `baseState` grants: candidate "a":1 at the
receiver's term 1 with an equally fresh log. -/
def grantableReq : RequestVote := ⟨1, "a", 1, 0, 0⟩

/-- A follower holding one entry of term 1, so its last log pair is
(1, 1). -/
def oneEntryFollower : RaftState :=
  { baseState with log := [⟨1, EntryKind.data, []⟩] }

/-- A candidate at the much higher term 5 whose log is stale: its last
log pair (0, 0) is lexicographically below the receiver's (1, 1). -/
def staleLogCandidateReq : RequestVote := ⟨5, "c", 2, 0, 0⟩

/-! Claim C4 -/

/-- C4 counterexample: `repeatVoteState` has voted this term for
exactly the requesting candidate — so it has **not** voted "for someone
else" — and every other condition of the claim holds (equal terms,
up-to-date candidate log, vote thresholds reached), yet the code
refuses the vote: `HandleRequestVote` demands a completely empty
`voted_for`, not merely the absence of a vote for another node. -/
theorem requestVote_refuses_repeat_vote :
    (repeatVoteReq.term = repeatVoteState.current_term
      ∧ (repeatVoteState.voted_for_ip = repeatVoteReq.ip
          ∧ repeatVoteState.voted_for_port = repeatVoteReq.port)
      ∧ canGrant repeatVoteState repeatVoteReq
      ∧ repeatVoteState.vote_target_term ≤ repeatVoteState.current_term
      ∧ repeatVoteState.vote_target_index ≤ repeatVoteState.commit_index)
    ∧ (handleRequestVote repeatVoteState repeatVoteReq).2.granted
        = false := by decide

/-- Strict increase of the election-timer reset counter along the
granting path of `HandleRequestVote` (step-down at an unchanged term,
`SetElectionTimer`, vote recording, metadata update). -/
theorem grant_timer_lt (u : RaftState) (c : Nat) (ip2 : String) (p2 : Nat) :
    u.timer_resets
      < (updateLogMetadata { setElectionTimer (stepDown u c) with
          voted_for_ip := ip2, voted_for_port := p2 }).timer_resets := by
  have h := stepDown_timer_resets_le u c
  simp only [updateLogMetadata, setElectionTimer]
  omega

set_option maxHeartbeats 1000000

/-- C4 as amended: a vote is granted iff the candidate's log is at
least as up-to-date (lexicographically on last term then last index),
the receiver is voteable (its latch is already set, or the vote
thresholds are reached by its commit index and by its term after any
step-down), and either the terms are equal and the receiver has cast
**no vote at all** this term (a repeat request from the candidate it
already voted for is refused), or the candidate's term is strictly
higher (the receiver then steps down, clearing its vote).  When
granting, it persists `(current_term, voted_for)` into the log
metadata before replying and rearms the election timer. -/
theorem handleRequestVote_grant_characterization (s : RaftState) (rqv : RequestVote) :
    ((handleRequestVote s rqv).2.granted = true ↔
      (canGrant s rqv
        ∧ (s.voteable = true ∨
            (s.vote_target_index ≤ s.commit_index
              ∧ s.vote_target_term ≤ max s.current_term rqv.term))
        ∧ ((rqv.term = s.current_term ∧ s.voted_for_ip = ""
              ∧ s.voted_for_port = 0)
            ∨ s.current_term < rqv.term)))
    ∧ ((handleRequestVote s rqv).2.granted = true →
        (handleRequestVote s rqv).1.metadata
            = ⟨(handleRequestVote s rqv).1.current_term, rqv.ip, rqv.port⟩
          ∧ (handleRequestVote s rqv).1.voted_for_ip = rqv.ip
          ∧ (handleRequestVote s rqv).1.voted_for_port = rqv.port
          ∧ s.timer_resets < (handleRequestVote s rqv).1.timer_resets) := by
  by_cases hlt : s.current_term < rqv.term
  · rw [Nat.max_eq_right (Nat.le_of_lt hlt)]
    by_cases hcg : canGrant s rqv
    · simp only [handleRequestVote, if_pos (And.intro hlt hcg)]
      simp only [stepDown_vote_target_index, stepDown_commit_index,
        stepDown_vote_target_term, stepDown_current_term, stepDown_voteable,
        stepDown_voted_for_ip, stepDown_voted_for_port, if_pos hlt]
      by_cases h2 : s.vote_target_index ≤ s.commit_index
          ∧ s.vote_target_term ≤ rqv.term
      · constructor
        · simp [h2, hcg, hlt]
        · simp only [if_pos h2]
          intro hg
          simp only [stepDown_current_term, stepDown_voted_for_ip,
            stepDown_voted_for_port, hcg, hlt, if_true, eq_self_iff_true,
            and_self, and_true, true_and, if_pos hlt]
          refine ⟨rfl, rfl, rfl, ?_⟩
          refine Nat.lt_of_le_of_lt ?_ (grant_timer_lt _ _ _ _)
          exact stepDown_timer_resets_le s rqv.term
      · constructor
        · cases hv : s.voteable <;>
            simp [hv, h2, hcg, hlt, stepDown_voteable, stepDown_current_term,
              stepDown_voted_for_ip, stepDown_voted_for_port]
        · simp only [if_neg h2]
          intro hg
          cases hv : s.voteable
          · simp [hv, hcg, hlt, stepDown_voteable, stepDown_current_term,
              stepDown_voted_for_ip, stepDown_voted_for_port] at hg
          · simp only [stepDown_current_term, stepDown_voted_for_ip,
              stepDown_voted_for_port, stepDown_voteable, hv, hcg, hlt,
              if_true, eq_self_iff_true, and_self, and_true, true_and,
              if_pos hlt]
            refine ⟨rfl, rfl, rfl, ?_⟩
            refine Nat.lt_of_le_of_lt ?_ (grant_timer_lt _ _ _ _)
            exact stepDown_timer_resets_le s rqv.term
    · simp only [handleRequestVote,
        if_neg (by tauto : ¬(s.current_term < rqv.term ∧ canGrant s rqv))]
      by_cases h2 : s.vote_target_index ≤ s.commit_index
          ∧ s.vote_target_term ≤ s.current_term
      · constructor
        · simp [h2, hcg, Nat.ne_of_gt hlt]
        · simp [h2, hcg, Nat.ne_of_gt hlt]
      · constructor
        · simp [h2, hcg, Nat.ne_of_gt hlt]
        · simp [h2, hcg, Nat.ne_of_gt hlt]
  · rw [Nat.max_eq_left (Nat.le_of_not_lt hlt)]
    simp only [handleRequestVote,
      if_neg (by tauto : ¬(s.current_term < rqv.term ∧ canGrant s rqv))]
    by_cases h2 : s.vote_target_index ≤ s.commit_index
        ∧ s.vote_target_term ≤ s.current_term
    · simp only [if_pos h2]
      by_cases heq : rqv.term = s.current_term
      · by_cases hcg : canGrant s rqv
        · by_cases hvip : s.voted_for_ip = ""
          · by_cases hvp : s.voted_for_port = 0
            · constructor
              · simp [heq, hcg, hvip, hvp, h2, hlt]
              · intro hg
                simp only [heq, hcg, hvip, hvp, if_true, eq_self_iff_true,
                  and_self, and_true, true_and]
                refine ⟨rfl, rfl, rfl, ?_⟩
                refine Nat.lt_of_le_of_lt ?_ (grant_timer_lt _ _ _ _)
                exact Nat.le_refl _
            · constructor
              · simp [heq, hcg, hvip, hvp, h2, hlt]
              · simp [heq, hcg, hvip, hvp]
          · constructor
            · simp [heq, hcg, hvip, h2, hlt]
            · simp [heq, hcg, hvip]
        · constructor
          · simp [heq, hcg, h2, hlt]
          · simp [heq, hcg]
      · constructor
        · simp [heq, hlt]
        · simp [heq]
    · simp only [if_neg h2]
      by_cases heq : rqv.term = s.current_term
      · by_cases hcg : canGrant s rqv
        · by_cases hvip : s.voted_for_ip = ""
          · by_cases hvp : s.voted_for_port = 0
            · constructor
              · cases hv : s.voteable <;>
                  simp [hv, heq, hcg, hvip, hvp, h2, hlt]
              · intro hg
                cases hv : s.voteable
                · simp [hv, heq, hcg, hvip, hvp] at hg
                · simp only [heq, hcg, hvip, hvp, hv, if_true,
                    eq_self_iff_true, and_self, and_true, true_and]
                  refine ⟨rfl, rfl, rfl, ?_⟩
                  refine Nat.lt_of_le_of_lt ?_ (grant_timer_lt _ _ _ _)
                  exact Nat.le_refl _
            · constructor
              · simp [heq, hcg, hvip, hvp]
              · simp [heq, hcg, hvip, hvp]
          · constructor
            · simp [heq, hcg, hvip]
            · simp [heq, hcg, hvip]
        · constructor
          · simp [heq, hcg]
          · simp [heq, hcg]
      · constructor
        · simp [heq, hlt]
        · simp [heq]


/-- Witness for C4's amended theorem: `baseState` grants `grantableReq`
and the granting run persists the vote in the metadata and bumps the
election-timer counter. -/
theorem handleRequestVote_grant_characterization_witness :
    (handleRequestVote baseState grantableReq).2.granted = true
    ∧ ((handleRequestVote baseState grantableReq).1.metadata
        = ⟨(handleRequestVote baseState grantableReq).1.current_term,
           grantableReq.ip, grantableReq.port⟩
      ∧ (handleRequestVote baseState grantableReq).1.voted_for_ip
          = grantableReq.ip
      ∧ (handleRequestVote baseState grantableReq).1.voted_for_port
          = grantableReq.port
      ∧ baseState.timer_resets
          < (handleRequestVote baseState grantableReq).1.timer_resets) :=
  ⟨by decide,
   (handleRequestVote_grant_characterization baseState grantableReq).2
     (by decide)⟩

/-! Claim C5 -/

/-- C5 counterexample: `oneEntryFollower` (term 1, last log pair
(1, 1)) receives a RequestVote at term 5 from a candidate with the
stale last log pair (0, 0).  The claim demands an unconditional
step-down to term 5; the code leaves the term at 1 because the
step-down is gated by the candidate-log up-to-dateness check. -/
theorem requestVote_no_stepdown_on_stale_log :
    oneEntryFollower.current_term = 1
    ∧ staleLogCandidateReq.term = 5
    ∧ (handleRequestVote oneEntryFollower staleLogCandidateReq).1.current_term
        = 1
    ∧ (handleRequestVote oneEntryFollower
        staleLogCandidateReq).1.voted_for_ip = "" := by decide

/-- C5 as amended: on a RequestVote whose term strictly exceeds the
receiver's, the receiver steps down — adopts the term, becomes
follower, clears leader, and clears its vote (possibly immediately
granting it to the candidate) — **only when** the candidate's log is
at least as up-to-date as its own; when the candidate's log is stale
the receiver keeps its term, role, leader and vote unchanged. -/
theorem requestVote_stepdown_gated (s : RaftState) (rqv : RequestVote)
    (hlt : s.current_term < rqv.term) :
    (canGrant s rqv →
      (handleRequestVote s rqv).1.current_term = rqv.term
        ∧ (handleRequestVote s rqv).1.role = Role.follower
        ∧ (handleRequestVote s rqv).1.leader_ip = ""
        ∧ (handleRequestVote s rqv).1.leader_port = 0
        ∧ ((handleRequestVote s rqv).1.voted_for_ip = ""
              ∧ (handleRequestVote s rqv).1.voted_for_port = 0
            ∨ (handleRequestVote s rqv).1.voted_for_ip = rqv.ip
              ∧ (handleRequestVote s rqv).1.voted_for_port = rqv.port))
    ∧ (¬ canGrant s rqv →
        (handleRequestVote s rqv).1.current_term = s.current_term
          ∧ (handleRequestVote s rqv).1.role = s.role
          ∧ (handleRequestVote s rqv).1.leader_ip = s.leader_ip
          ∧ (handleRequestVote s rqv).1.voted_for_ip = s.voted_for_ip
          ∧ (handleRequestVote s rqv).1.voted_for_port = s.voted_for_port) := by
  constructor
  · intro hcg
    simp only [handleRequestVote, if_pos (And.intro hlt hcg)]
    simp only [stepDown_vote_target_index, stepDown_commit_index,
      stepDown_vote_target_term, stepDown_current_term, stepDown_voteable,
      stepDown_voted_for_ip, stepDown_voted_for_port, if_pos hlt]
    by_cases h2 : s.vote_target_index ≤ s.commit_index
        ∧ s.vote_target_term ≤ rqv.term
    · simp only [if_pos h2]
      cases hv : s.voteable <;>
        simp [hv, hcg, hlt, updateLogMetadata, setElectionTimer,
          stepDown_current_term, stepDown_role, stepDown_leader_ip,
          stepDown_leader_port, stepDown_voted_for_ip, stepDown_voted_for_port]
    · simp only [if_neg h2]
      cases hv : s.voteable <;>
        simp [hv, hcg, hlt, updateLogMetadata, setElectionTimer,
          stepDown_current_term, stepDown_role, stepDown_leader_ip,
          stepDown_leader_port, stepDown_voted_for_ip, stepDown_voted_for_port,
          stepDown_voteable]
  · intro hcg
    simp only [handleRequestVote,
      if_neg (by tauto : ¬(s.current_term < rqv.term ∧ canGrant s rqv))]
    by_cases h2 : s.vote_target_index ≤ s.commit_index
        ∧ s.vote_target_term ≤ s.current_term <;>
      simp [h2, hcg, Nat.ne_of_gt hlt]

/-- Witness for C5's amended theorem: `baseState` (term 1) receiving
`staleLogCandidateReq` (term 5, log as fresh as the empty local log)
does step down: term 5, follower, no leader, vote cleared or granted
to the candidate. -/
theorem requestVote_stepdown_gated_witness :
    (handleRequestVote baseState staleLogCandidateReq).1.current_term
        = staleLogCandidateReq.term
    ∧ (handleRequestVote baseState staleLogCandidateReq).1.role
        = Role.follower
    ∧ (handleRequestVote baseState staleLogCandidateReq).1.leader_ip = ""
    ∧ (handleRequestVote baseState staleLogCandidateReq).1.leader_port = 0
    ∧ ((handleRequestVote baseState staleLogCandidateReq).1.voted_for_ip = ""
          ∧ (handleRequestVote baseState
              staleLogCandidateReq).1.voted_for_port = 0
        ∨ (handleRequestVote baseState staleLogCandidateReq).1.voted_for_ip
            = staleLogCandidateReq.ip
          ∧ (handleRequestVote baseState
              staleLogCandidateReq).1.voted_for_port
            = staleLogCandidateReq.port) :=
  (requestVote_stepdown_gated baseState staleLogCandidateReq (by decide)).1
    (by decide)

end Floyd
